import Mathlib

/-!
Shallow embedding of the tabular data-cleaning pipeline
(`src/data_processing.py` and `src/pipeline_orchestrator.py`).

A table is a header (list of column names) plus a list of rows; each cell
is a scalar: a string, a number, or null (pandas NaN).  External effects
(reading the input CSV, writing the output CSV, writing the execution log,
sampling the clock) are passed in as explicit parameters: a read is an
`Except String Table` (error = the raised exception's message), a write
outcome is an `Option String` (`some e` = the write raised `e`), and the
clock is a pair of integer samples taken at the start and at the end of
`process`.
-/

namespace ADF

/-- A scalar cell value: string, number, or absent/null (pandas `NaN`). -/
inductive Value where
  | str (s : String)
  | num (n : Int)
  | null
deriving DecidableEq, Repr

/-- A row is the list of its cells, positionally aligned with the header. -/
abbrev Row := List Value

/-- A dataframe: a header of column names and the data rows. -/
structure Table where
  columns : List String
  rows : List Row
deriving DecidableEq, Repr

/-- `isNull v` holds exactly on the null cell (pandas `isnull`). -/
def isNull : Value → Bool
  | .null => true
  | _ => false

/-- A row is complete when none of its cells is null (kept by `dropna`). -/
def rowComplete (r : Row) : Bool := !(r.any isNull)

/-- One pass over the rows keeping each row not seen before; `seen` is the
set of row values already emitted. -/
def dropDupAux (seen : List Row) : List Row → List Row
  | [] => []
  | r :: rs => if r ∈ seen then dropDupAux seen rs else r :: dropDupAux (r :: seen) rs

/-- `df.drop_duplicates()`: keep the first occurrence of each row value,
removing every later exact duplicate; survivors keep their order. -/
def dropDuplicates (rows : List Row) : List Row := dropDupAux [] rows

/-- `df.dropna()`: keep exactly the rows with no null cell, in order. -/
def dropna (rows : List Row) : List Row := rows.filter rowComplete

/-- `DataProcessor.clean_data` on a loaded dataframe: drop duplicates,
then drop rows with missing values. -/
def clean_data (t : Table) : Table :=
  { columns := t.columns, rows := dropna (dropDuplicates t.rows) }

/-- Python `str.strip()` on the character list: drop leading and trailing
whitespace. -/
def stripChars (cs : List Char) : List Char :=
  ((cs.dropWhile Char.isWhitespace).reverse.dropWhile Char.isWhitespace).reverse

/-- Python `str.strip()`: drop leading and trailing whitespace. -/
def pyStrip (s : String) : String := String.mk (stripChars s.data)

/-- Python `str.lower()`: lowercase every character. -/
def pyLower (s : String) : String := String.mk (s.data.map Char.toLower)

/-- `Series.str.strip()` on one cell: strip a string, leave null as null.
Numeric columns are never selected by `select_dtypes(include=['object'])`,
so on them this per-cell map is the identity, as in the source. -/
def stripValue : Value → Value
  | .str s => .str (pyStrip s)
  | v => v

/-- Overwrite the cells of every column named `processed_timestamp` with the
run timestamp (the `df['processed_timestamp'] = ...` assignment when the
column already exists). -/
def overwriteTimestampRow (cols : List String) (ts : String) (r : Row) : Row :=
  (cols.zip r).map (fun p => if p.1 = "processed_timestamp" then Value.str ts else p.2)

/-- `df['processed_timestamp'] = datetime.now().isoformat()`: overwrite the
column if present, otherwise append it on the right with the same value in
every row. -/
def addTimestamp (ts : String) (t : Table) : Table :=
  if "processed_timestamp" ∈ t.columns then
    { columns := t.columns, rows := t.rows.map (overwriteTimestampRow t.columns ts) }
  else
    { columns := t.columns ++ ["processed_timestamp"],
      rows := t.rows.map (fun r => r ++ [Value.str ts]) }

/-- `DataProcessor.transform_data` on a loaded dataframe: stamp the
timestamp column, lowercase every column name, then strip whitespace from
the string cells (the textual columns; non-textual columns hold no string
cells so the per-cell map leaves them untouched). -/
def transform_data (ts : String) (t : Table) : Table :=
  let t1 := addTimestamp ts t
  let t2 : Table := { columns := t1.columns.map pyLower, rows := t1.rows }
  { columns := t2.columns, rows := t2.rows.map (fun r => r.map stripValue) }

/-- `DataProcessor.validate_data` on a loaded dataframe: `False` when the
dataframe is empty or some cell is null, `True` otherwise. -/
def validate_data (t : Table) : Bool :=
  if t.rows.length = 0 then false
  else if t.rows.any (fun r => r.any isNull) then false
  else true

/-- The result dictionary returned by `process` / `run_pipeline`.  Success
and failure dictionaries carry different key sets, so each optional key is
an `Option`. -/
structure RunResult where
  status : String
  rows_processed : Option Nat
  duration_seconds : Option Int
  output_path : Option String
  error : Option String
  timestamp : Option String
deriving DecidableEq, Repr

/-- The failure dictionary built by `process`'s `except` clause
(`run_pipeline`'s failure dictionaries carry no timestamp, hence the
`Option`). -/
def failedResult (e : String) (rts : Option String) : RunResult :=
  { status := "failed", rows_processed := none, duration_seconds := none,
    output_path := none, error := some e, timestamp := rts }

/-- The success dictionary built at the end of `process`. -/
def successResult (n : Nat) (d : Int) (outp rts : String) : RunResult :=
  { status := "success", rows_processed := some n, duration_seconds := some d,
    output_path := some outp, error := none, timestamp := some rts }

/-- `clean_data` as the method is written: `ValueError` when `self.df` is
`None`, otherwise the cleaning of the loaded dataframe. -/
def clean_dataM : Option Table → Except String Table
  | none => .error "No data loaded. Call read_csv() first."
  | some t => .ok (clean_data t)

/-- `transform_data` as the method is written: `ValueError` when `self.df`
is `None`. -/
def transform_dataM (ts : String) : Option Table → Except String Table
  | none => .error "No data loaded. Call read_csv() first."
  | some t => .ok (transform_data ts t)

/-- `validate_data` as the method is written: `ValueError` when `self.df`
is `None`. -/
def validate_dataM : Option Table → Except String Bool
  | none => .error "No data loaded."
  | some t => .ok (validate_data t)

/-- `write_csv` as the method is written: `ValueError` when `self.df` is
`None`; otherwise the write either raises (`some e`) or succeeds, and on
success the output file holds exactly the dataframe. -/
def write_csvM : Option Table → Option String → Except String Table
  | none, _ => .error "No data to write."
  | some _, some e => .error e
  | some t, none => .ok t

/-- The pipeline stages, in their fixed order, used to record which stages
a `process` call executed. -/
inductive Stage where
  | load
  | clean
  | transform
  | validateStage
  | persist
deriving DecidableEq, Repr

/-- `DataProcessor.process`: run the stages in order inside one `try`;
any stage failure is caught and turned into a failure dictionary.
Returns the result dictionary, the list of stages that were executed, and
the persisted output table (`some` exactly when `write_csv` succeeded).
`load` is the outcome of `read_csv`, `ts` the normalization timestamp,
`writeErr` the outcome of the output-file write, `tStart`/`tEnd` the two
clock samples around the stage sequence, `rts` the result timestamp. -/
def processTr (load : Except String Table) (ts outputPath : String)
    (writeErr : Option String) (tStart tEnd : Int) (rts : String) :
    RunResult × List Stage × Option Table :=
  match load with
  | .error e => (failedResult e (some rts), [Stage.load], none)
  | .ok t0 =>
    match clean_dataM (some t0) with
    | .error e => (failedResult e (some rts), [Stage.load, Stage.clean], none)
    | .ok t1 =>
      match transform_dataM ts (some t1) with
      | .error e =>
        (failedResult e (some rts), [Stage.load, Stage.clean, Stage.transform], none)
      | .ok t2 =>
        match validate_dataM (some t2) with
        | .error e =>
          (failedResult e (some rts),
            [Stage.load, Stage.clean, Stage.transform, Stage.validateStage], none)
        | .ok v =>
          if v = false then
            (failedResult "Data validation failed" (some rts),
              [Stage.load, Stage.clean, Stage.transform, Stage.validateStage], none)
          else
            match write_csvM (some t2) writeErr with
            | .error e =>
              (failedResult e (some rts),
                [Stage.load, Stage.clean, Stage.transform, Stage.validateStage,
                  Stage.persist], none)
            | .ok tw =>
              (successResult t2.rows.length (tEnd - tStart) outputPath rts,
                [Stage.load, Stage.clean, Stage.transform, Stage.validateStage,
                  Stage.persist], some tw)

/-- `process` with the stage bodies inlined on the always-loaded dataframe:
the reference against which `processTr` is compared to show the
`self.df is None` guards are unreachable from `process`. -/
def processPure (load : Except String Table) (ts outputPath : String)
    (writeErr : Option String) (tStart tEnd : Int) (rts : String) :
    RunResult × List Stage × Option Table :=
  match load with
  | .error e => (failedResult e (some rts), [Stage.load], none)
  | .ok t0 =>
    let t2 := transform_data ts (clean_data t0)
    if validate_data t2 = false then
      (failedResult "Data validation failed" (some rts),
        [Stage.load, Stage.clean, Stage.transform, Stage.validateStage], none)
    else
      match writeErr with
      | some e =>
        (failedResult e (some rts),
          [Stage.load, Stage.clean, Stage.transform, Stage.validateStage,
            Stage.persist], none)
      | none =>
        (successResult t2.rows.length (tEnd - tStart) outputPath rts,
          [Stage.load, Stage.clean, Stage.transform, Stage.validateStage,
            Stage.persist], some t2)

/-- The run configuration JSON: `input_path` and `output_path` required
(a missing key raises `KeyError`), `pipeline_name` and `log_path`
optional. -/
structure Config where
  input_path : Option String
  output_path : Option String
  pipeline_name : Option String
  log_path : Option String
deriving DecidableEq, Repr

/-- The execution-log entry written by the orchestrator. -/
structure ExecutionLog where
  pipeline_name : String
  execution_time : String
  result : RunResult
deriving DecidableEq, Repr

/-- `run_pipeline`: load the configuration, run the processor, write one
execution-log file, return the processor's result; every failure inside
the `try` (configuration read, missing key, log write) is caught and
returned as a failure dictionary.  `cfg` is the outcome of reading the
configuration file, `logWriteErr` the outcome of the log-file write
(`some e` = it raised `e`), `execTime` the entry's `execution_time` stamp
and `nowFmt` the `YYYYMMDD_HHMMSS` stamp in the log file name.  Returns
the result returned to the caller, the log file written (`some (name,
entry)` exactly when one was), and the pipeline stages executed. -/
def run_pipeline (cfg : Except String Config) (load : Except String Table)
    (ts : String) (writeErr : Option String) (tStart tEnd : Int) (rts : String)
    (execTime nowFmt : String) (logWriteErr : Option String) :
    RunResult × Option (String × ExecutionLog) × List Stage :=
  match cfg with
  | .error e => (failedResult e none, none, [])
  | .ok c =>
    match c.input_path with
    | none => (failedResult "KeyError: input_path" none, none, [])
    | some _ =>
      match c.output_path with
      | none => (failedResult "KeyError: output_path" none, none, [])
      | some outp =>
        let p := processTr load ts outp writeErr tStart tEnd rts
        let entry : ExecutionLog :=
          { pipeline_name := c.pipeline_name.getD "default",
            execution_time := execTime, result := p.1 }
        let logFile := (c.log_path.getD "logs") ++ "/execution_" ++ nowFmt ++ ".json"
        match logWriteErr with
        | some e => (failedResult e none, none, p.2.1)
        | none => (p.1, some (logFile, entry), p.2.1)

/-- Index of the first occurrence of a row value in a list of rows (length
of the list when absent); used to state the keep-first-occurrence order of
`dropDuplicates`. -/
def idxOfRow (x : Row) : List Row → Nat
  | [] => 0
  | r :: rs => if r = x then 0 else idxOfRow x rs + 1

/-- The three-row input table of the end-to-end example: a duplicated
`Alice` row with padded whitespace and a `Bob` row with a null email. -/
def sampleInput : Table :=
  { columns := ["id", "name", "email"],
    rows := [[.num 1, .str " Alice ", .str "a@x.com"],
             [.num 1, .str " Alice ", .str "a@x.com"],
             [.num 2, .str "Bob", .null]] }

/-- A one-column table with no rows; fails validation as empty. -/
def tableEmpty : Table := { columns := ["a"], rows := [] }

/-- A one-column table whose only row is null; cleaning empties it, so the
run fails validation. -/
def tableNullRow : Table := { columns := ["a"], rows := [[Value.null]] }

/-- A one-column one-row table on which every run succeeds. -/
def tableOneRow : Table := { columns := ["a"], rows := [[Value.num 1]] }

/-- An already-normalized table: lowercase column names, trimmed string
cells, and a `processed_timestamp` column. -/
def tableNormalized : Table :=
  { columns := ["id", "processed_timestamp"],
    rows := [[Value.num 1, Value.str "t0"]] }

/-- A complete run configuration with default pipeline name and log
directory. -/
def cfgSample : Config :=
  { input_path := some "data/input.csv", output_path := some "data/output.csv",
    pipeline_name := none, log_path := none }

/-- A run configuration missing the required `input_path` key. -/
def cfgNoInput : Config :=
  { input_path := none, output_path := some "data/output.csv",
    pipeline_name := none, log_path := none }

/-! ## Helper lemmas -/

/-- Unfolding `process` on a successfully loaded table: the stage methods
all see a loaded dataframe, so only validation and the write can fail. -/
theorem processTr_ok (t0 : Table) (ts outputPath : String) (writeErr : Option String)
    (tStart tEnd : Int) (rts : String) :
    processTr (.ok t0) ts outputPath writeErr tStart tEnd rts =
      (if validate_data (transform_data ts (clean_data t0)) = false then
        (failedResult "Data validation failed" (some rts),
          [Stage.load, Stage.clean, Stage.transform, Stage.validateStage], none)
      else
        match writeErr with
        | some e =>
          (failedResult e (some rts),
            [Stage.load, Stage.clean, Stage.transform, Stage.validateStage,
              Stage.persist], none)
        | none =>
          (successResult (transform_data ts (clean_data t0)).rows.length
              (tEnd - tStart) outputPath rts,
            [Stage.load, Stage.clean, Stage.transform, Stage.validateStage,
              Stage.persist], some (transform_data ts (clean_data t0)))) := by
  cases writeErr <;> rfl

/-- Membership in the deduplication pass: kept exactly the rows of the
input not already seen. -/
theorem mem_dropDupAux {x : Row} {seen l : List Row} :
    x ∈ dropDupAux seen l ↔ x ∈ l ∧ x ∉ seen := by
  induction l generalizing seen with
  | nil => simp [dropDupAux]
  | cons r rs ih =>
    simp only [dropDupAux]
    by_cases h : r ∈ seen
    · rw [if_pos h, ih]
      constructor
      · rintro ⟨hx, hs⟩
        exact ⟨List.mem_cons_of_mem _ hx, hs⟩
      · rintro ⟨hx, hs⟩
        rcases List.mem_cons.mp hx with rfl | hx
        · exact absurd h hs
        · exact ⟨hx, hs⟩
    · rw [if_neg h]
      constructor
      · intro hx
        rcases List.mem_cons.mp hx with rfl | hx
        · exact ⟨List.mem_cons_self _ _, h⟩
        · rcases ih.mp hx with ⟨h1, h2⟩
          exact ⟨List.mem_cons_of_mem _ h1, fun hc => h2 (List.mem_cons_of_mem _ hc)⟩
      · rintro ⟨hx, hs⟩
        by_cases hxr : x = r
        · exact hxr ▸ List.mem_cons_self r _
        · rcases List.mem_cons.mp hx with rfl | hx
          · exact absurd rfl hxr
          · refine List.mem_cons_of_mem _ (ih.mpr ⟨hx, fun hc => ?_⟩)
            rcases List.mem_cons.mp hc with h1 | h2
            · exact hxr h1
            · exact hs h2

/-- The deduplication pass emits no row twice. -/
theorem nodup_dropDupAux (seen l : List Row) : (dropDupAux seen l).Nodup := by
  induction l generalizing seen with
  | nil => simp [dropDupAux]
  | cons r rs ih =>
    simp only [dropDupAux]
    by_cases h : r ∈ seen
    · rw [if_pos h]; exact ih seen
    · rw [if_neg h]
      refine List.nodup_cons.mpr ⟨fun hmem => ?_, ih _⟩
      exact (mem_dropDupAux.mp hmem).2 (List.mem_cons_self r _)

/-- The deduplication pass keeps the surviving rows in input order. -/
theorem sublist_dropDupAux (seen l : List Row) : List.Sublist (dropDupAux seen l) l := by
  induction l generalizing seen with
  | nil => simp [dropDupAux]
  | cons r rs ih =>
    simp only [dropDupAux]
    by_cases h : r ∈ seen
    · rw [if_pos h]; exact (ih seen).cons r
    · rw [if_neg h]; exact (ih (r :: seen)).cons₂ r

/-- First-occurrence index of the head row. -/
theorem idxOfRow_cons_self (x : Row) (l : List Row) : idxOfRow x (x :: l) = 0 := by
  simp [idxOfRow]

/-- First-occurrence index past a different head row. -/
theorem idxOfRow_cons_ne {x r : Row} (l : List Row) (h : r ≠ x) :
    idxOfRow x (r :: l) = idxOfRow x l + 1 := by
  simp [idxOfRow, h]

/-- The deduplication pass lists its survivors in strictly increasing
order of their first occurrence in the input. -/
theorem pairwise_idx_dropDupAux (seen l : List Row) :
    (dropDupAux seen l).Pairwise (fun x y => idxOfRow x l < idxOfRow y l) := by
  induction l generalizing seen with
  | nil => simp [dropDupAux]
  | cons r rs ih =>
    simp only [dropDupAux]
    by_cases h : r ∈ seen
    · rw [if_pos h]
      refine List.Pairwise.imp_of_mem ?_ (ih seen)
      intro a b ha hb hab
      have hane : r ≠ a := fun he => (mem_dropDupAux.mp ha).2 (he ▸ h)
      have hbne : r ≠ b := fun he => (mem_dropDupAux.mp hb).2 (he ▸ h)
      rw [idxOfRow_cons_ne _ hane, idxOfRow_cons_ne _ hbne]
      exact Nat.succ_lt_succ hab
    · rw [if_neg h]
      refine List.pairwise_cons.mpr ⟨?_, ?_⟩
      · intro b hb
        have hbne : r ≠ b := fun he =>
          (mem_dropDupAux.mp hb).2 (he ▸ List.mem_cons_self r seen)
        rw [idxOfRow_cons_self, idxOfRow_cons_ne _ hbne]
        exact Nat.succ_pos _
      · refine List.Pairwise.imp_of_mem ?_ (ih (r :: seen))
        intro a b ha hb hab
        have hane : r ≠ a := fun he =>
          (mem_dropDupAux.mp ha).2 (he ▸ List.mem_cons_self r seen)
        have hbne : r ≠ b := fun he =>
          (mem_dropDupAux.mp hb).2 (he ▸ List.mem_cons_self r seen)
        rw [idxOfRow_cons_ne _ hane, idxOfRow_cons_ne _ hbne]
        exact Nat.succ_lt_succ hab

/-! ## Claims -/

/-- C1: `process` never propagates a stage failure to its caller: it is a
total function into result dictionaries; when the load fails, when
validation fails, or when the write fails, it returns a failed Run Result
carrying that failure's message and executes no further stage; and its
result always has status `success` with no error or status `failed` with
an error message. -/
theorem process_failure_contract (load : Except String Table) (ts outputPath : String)
    (writeErr : Option String) (tStart tEnd : Int) (rts : String) :
    (∀ e, load = .error e →
      processTr load ts outputPath writeErr tStart tEnd rts =
        (failedResult e (some rts), [Stage.load], none)) ∧
    (∀ t0, load = .ok t0 →
      validate_data (transform_data ts (clean_data t0)) = false →
      processTr load ts outputPath writeErr tStart tEnd rts =
        (failedResult "Data validation failed" (some rts),
          [Stage.load, Stage.clean, Stage.transform, Stage.validateStage], none)) ∧
    (∀ t0 e, load = .ok t0 →
      validate_data (transform_data ts (clean_data t0)) = true →
      writeErr = some e →
      processTr load ts outputPath writeErr tStart tEnd rts =
        (failedResult e (some rts),
          [Stage.load, Stage.clean, Stage.transform, Stage.validateStage,
            Stage.persist], none)) ∧
    ((processTr load ts outputPath writeErr tStart tEnd rts).1.status = "success" ∧
        (processTr load ts outputPath writeErr tStart tEnd rts).1.error = none ∨
      (processTr load ts outputPath writeErr tStart tEnd rts).1.status = "failed" ∧
        ∃ e, (processTr load ts outputPath writeErr tStart tEnd rts).1.error = some e) := by
  cases load with
  | error e =>
    refine ⟨fun e' he' => ?_, fun t0 h => by simp at h, fun t0 e' h => by simp at h, ?_⟩
    · cases he'
      rfl
    · exact Or.inr ⟨rfl, e, rfl⟩
  | ok t0 =>
    refine ⟨fun e he => by simp at he, fun t0' h0 hv => ?_, fun t0' e h0 hv hw => ?_, ?_⟩
    · cases h0
      rw [processTr_ok, if_pos hv]
    · cases h0
      subst hw
      rw [processTr_ok, if_neg (by simp [hv])]
    · rw [processTr_ok]
      by_cases hv : validate_data (transform_data ts (clean_data t0)) = false
      · rw [if_pos hv]
        exact Or.inr ⟨rfl, _, rfl⟩
      · rw [if_neg hv]
        cases writeErr with
        | some e => exact Or.inr ⟨rfl, e, rfl⟩
        | none => exact Or.inl ⟨rfl, rfl⟩

/-- C1 witness: a concrete failing load is returned as a failed result. -/
theorem process_failure_contract_witness :
    processTr (.error "Input file not found: data/input.csv") "T" "data/output.csv"
        none 0 5 "R" =
      (failedResult "Input file not found: data/input.csv" (some "R"),
        [Stage.load], none) :=
  (process_failure_contract (.error "Input file not found: data/input.csv") "T"
    "data/output.csv" none 0 5 "R").1 _ rfl

/-- C2: on the three-row sample input the pipeline succeeds: the persisted
table keeps one `Alice` row with its name stripped and its email intact,
plus the appended `processed_timestamp` column, and the result reports
status success with one row processed. -/
theorem process_sample_end_to_end (ts rts : String) (tStart tEnd : Int) :
    processTr (.ok sampleInput) ts "data/output.csv" none tStart tEnd rts =
      (successResult 1 (tEnd - tStart) "data/output.csv" rts,
       [Stage.load, Stage.clean, Stage.transform, Stage.validateStage, Stage.persist],
       some { columns := ["id", "name", "email", "processed_timestamp"],
              rows := [[.num 1, .str "Alice", .str "a@x.com", .str (pyStrip ts)]] }) := by
  rfl

/-- C3: deduplication returns a table with no two identical rows, whose
rows are exactly the row values of the input, kept as a subsequence of the
input (original relative order) and listed in strictly increasing order of
first occurrence. -/
theorem dropDuplicates_spec (l : List Row) :
    (dropDuplicates l).Nodup ∧
    (∀ r, r ∈ dropDuplicates l ↔ r ∈ l) ∧
    List.Sublist (dropDuplicates l) l ∧
    (dropDuplicates l).Pairwise (fun x y => idxOfRow x l < idxOfRow y l) := by
  refine ⟨nodup_dropDupAux [] l, fun r => ?_, sublist_dropDupAux [] l,
    pairwise_idx_dropDupAux [] l⟩
  rw [dropDuplicates, mem_dropDupAux]
  simp

/-- C4: dropping incomplete rows keeps exactly the complete input rows
(those with no null cell), with input multiplicity, in input order, and
every surviving cell is non-null. -/
theorem dropna_spec (l : List Row) :
    List.Sublist (dropna l) l ∧
    (∀ r, r ∈ dropna l ↔ r ∈ l ∧ rowComplete r = true) ∧
    (∀ r ∈ dropna l, ∀ v ∈ r, isNull v = false) ∧
    (∀ r, (dropna l).count r = if rowComplete r then l.count r else 0) := by
  refine ⟨List.filter_sublist l, fun r => List.mem_filter, fun r hr v hv => ?_, fun r => ?_⟩
  · have hc : rowComplete r = true := (List.mem_filter.mp hr).2
    simp only [rowComplete, Bool.not_eq_true'] at hc
    have hnv := List.any_eq_false.mp hc v hv
    exact Bool.eq_false_iff.mpr hnv
  · by_cases hc : rowComplete r = true
    · rw [if_pos hc, dropna, List.count_filter hc]
    · rw [if_neg hc, List.count_eq_zero]
      intro hmem
      exact hc (List.mem_filter.mp hmem).2

/-- C4 witness: on the sample rows, dropping incomplete rows keeps order,
keeps the non-null `Alice` cell, and removes the null-email `Bob` row. -/
theorem dropna_spec_witness :
    List.Sublist (dropna sampleInput.rows) sampleInput.rows ∧
    isNull (Value.str " Alice ") = false ∧
    (dropna sampleInput.rows).count [Value.num 2, Value.str "Bob", Value.null] =
      (if rowComplete [Value.num 2, Value.str "Bob", Value.null]
        then sampleInput.rows.count [Value.num 2, Value.str "Bob", Value.null]
        else 0) :=
  ⟨(dropna_spec sampleInput.rows).1,
   (dropna_spec sampleInput.rows).2.2.1
     [Value.num 1, Value.str " Alice ", Value.str "a@x.com"] (by decide)
     (Value.str " Alice ") (by decide),
   (dropna_spec sampleInput.rows).2.2.2 [Value.num 2, Value.str "Bob", Value.null]⟩

/-- C5: validation fails exactly on an empty table or a table with a null
cell, and when the table reaching validation fails it, `process` returns
the failed `Data validation failed` result without persisting anything. -/
theorem validate_data_fail_iff (t : Table) (load : Except String Table)
    (ts outputPath : String) (writeErr : Option String) (tStart tEnd : Int)
    (rts : String) :
    (validate_data t = false ↔
      t.rows = [] ∨ ∃ r ∈ t.rows, ∃ v ∈ r, isNull v = true) ∧
    (∀ t0, load = .ok t0 →
      validate_data (transform_data ts (clean_data t0)) = false →
      processTr load ts outputPath writeErr tStart tEnd rts =
        (failedResult "Data validation failed" (some rts),
          [Stage.load, Stage.clean, Stage.transform, Stage.validateStage], none)) := by
  constructor
  · simp only [validate_data]
    split_ifs with h0 ha
    · exact iff_of_true rfl (Or.inl (List.length_eq_zero.mp h0))
    · refine iff_of_true rfl (Or.inr ?_)
      rcases List.any_eq_true.mp ha with ⟨r, hr, hrn⟩
      rcases List.any_eq_true.mp hrn with ⟨v, hv, hvn⟩
      exact ⟨r, hr, v, hv, hvn⟩
    · refine iff_of_false (by simp) ?_
      rintro (he | ⟨r, hr, v, hv, hvn⟩)
      · exact h0 (he ▸ rfl)
      · exact ha (List.any_eq_true.mpr ⟨r, hr, List.any_eq_true.mpr ⟨v, hv, hvn⟩⟩)
  · rintro t0 rfl hv
    rw [processTr_ok, if_pos hv]

/-- C5 witness: a table whose rows are all incomplete cleans to an empty
table, fails validation, and `process` stops before persisting. -/
theorem validate_data_fail_iff_witness :
    processTr (.ok tableNullRow) "T" "o.csv" none 0 5 "R" =
      (failedResult "Data validation failed" (some "R"),
        [Stage.load, Stage.clean, Stage.transform, Stage.validateStage], none) :=
  (validate_data_fail_iff tableEmpty (.ok tableNullRow) "T" "o.csv" none 0 5 "R").2
    _ rfl (by decide)

/-- C7: whenever `process` succeeds, the load succeeded and the result is
exactly the success dictionary: status success, row count equal to the row
count of the table after the normalize stage (which is also the persisted
table), duration the difference of the two clock samples around the whole
call, and the configured output path. -/
theorem process_success_contract (load : Except String Table) (ts outputPath : String)
    (writeErr : Option String) (tStart tEnd : Int) (rts : String) :
    (processTr load ts outputPath writeErr tStart tEnd rts).1.status = "success" →
    ∃ t0, load = .ok t0 ∧
      processTr load ts outputPath writeErr tStart tEnd rts =
        (successResult (transform_data ts (clean_data t0)).rows.length
            (tEnd - tStart) outputPath rts,
          [Stage.load, Stage.clean, Stage.transform, Stage.validateStage,
            Stage.persist], some (transform_data ts (clean_data t0))) := by
  intro hs
  cases load with
  | error e => simp [processTr, failedResult] at hs
  | ok t0 =>
    refine ⟨t0, rfl, ?_⟩
    rw [processTr_ok]
    rw [processTr_ok] at hs
    by_cases hv : validate_data (transform_data ts (clean_data t0)) = false
    · rw [if_pos hv] at hs
      simp [failedResult] at hs
    · rw [if_neg hv] at hs ⊢
      cases writeErr with
      | some e => simp [failedResult] at hs
      | none => rfl

/-- C7 witness: the sample run succeeds and its result carries the row
count after normalization, the clock difference, and the output path. -/
theorem process_success_contract_witness :
    processTr (.ok sampleInput) "T" "data/output.csv" none 0 5 "R" =
      (successResult (transform_data "T" (clean_data sampleInput)).rows.length (5 - 0)
          "data/output.csv" "R",
        [Stage.load, Stage.clean, Stage.transform, Stage.validateStage,
          Stage.persist], some (transform_data "T" (clean_data sampleInput))) := by
  obtain ⟨t0, ht, heq⟩ :=
    process_success_contract (.ok sampleInput) "T" "data/output.csv" none 0 5 "R" rfl
  cases ht
  exact heq

/-- C10: each stage method called with no loaded dataframe returns the
`ValueError` its guard raises, and `process` never reaches that state: it
behaves exactly like the guard-free pipeline because `read_csv` runs
first. -/
theorem process_stage_guards (load : Except String Table) (ts outputPath : String)
    (writeErr : Option String) (tStart tEnd : Int) (rts : String) :
    clean_dataM none = .error "No data loaded. Call read_csv() first." ∧
    transform_dataM ts none = .error "No data loaded. Call read_csv() first." ∧
    validate_dataM none = .error "No data loaded." ∧
    write_csvM none writeErr = .error "No data to write." ∧
    processTr load ts outputPath writeErr tStart tEnd rts =
      processPure load ts outputPath writeErr tStart tEnd rts := by
  refine ⟨rfl, rfl, rfl, ?_, ?_⟩
  · cases writeErr <;> rfl
  · cases load with
    | error e => rfl
    | ok t0 => cases writeErr <;> rfl

/-- One normalized-and-stripped row, cell by cell: position `j` holds the
fresh stripped timestamp where the header names `processed_timestamp`,
and keeps the already-stripped original cell everywhere else. -/
theorem overwrite_strip_getD (ts : String) (cols : List String) :
    ∀ (r : Row) (j : Nat), r.length = cols.length →
      (∀ v ∈ r, stripValue v = v) →
      ((overwriteTimestampRow cols ts r).map stripValue).getD j Value.null =
        (if cols.getD j "" = "processed_timestamp" ∧ j < cols.length
          then Value.str (pyStrip ts) else r.getD j Value.null) := by
  induction cols with
  | nil =>
    intro r j hlen htrim
    have hr : r = [] := List.length_eq_zero.mp (by simpa using hlen)
    subst hr
    simp [overwriteTimestampRow]
  | cons c cs ih =>
    intro r j hlen htrim
    cases r with
    | nil => simp at hlen
    | cons v vs =>
      simp only [overwriteTimestampRow, List.zip_cons_cons, List.map_cons]
      cases j with
      | zero =>
        simp only [List.getD_cons_zero]
        by_cases hc : c = "processed_timestamp"
        · simp [hc, stripValue]
        · have hv : stripValue v = v := htrim v (List.mem_cons_self _ _)
          simp [hc, hv]
      | succ k =>
        simp only [List.getD_cons_succ]
        have hlen' : vs.length = cs.length := by simpa using hlen
        have htrim' : ∀ w ∈ vs, stripValue w = w :=
          fun w hw => htrim w (List.mem_cons_of_mem _ hw)
        have hk := ih vs k hlen' htrim'
        simp only [overwriteTimestampRow] at hk
        rw [hk]
        by_cases hck : cs.getD k "" = "processed_timestamp" ∧ k < cs.length
        · rw [if_pos hck, if_pos ⟨hck.1, Nat.succ_lt_succ hck.2⟩]
        · rw [if_neg hck,
            if_neg (fun hcon => hck ⟨hcon.1, Nat.lt_of_succ_lt_succ hcon.2⟩)]

/-- C6: normalizing a table whose column names are already lowercase,
whose cells are already stripped, and which already carries the
`processed_timestamp` column, keeps every column name, keeps the row
count, keeps every cell outside the `processed_timestamp` column, and
rewrites the `processed_timestamp` cells to the new timestamp. -/
theorem transform_data_idempotent_mod_timestamp (t : Table) (ts : String)
    (hcols : ∀ c ∈ t.columns, pyLower c = c)
    (htrim : ∀ r ∈ t.rows, ∀ v ∈ r, stripValue v = v)
    (hwf : ∀ r ∈ t.rows, r.length = t.columns.length)
    (hpt : "processed_timestamp" ∈ t.columns) :
    (transform_data ts t).columns = t.columns ∧
    (transform_data ts t).rows.length = t.rows.length ∧
    (∀ i j, t.columns.getD j "" ≠ "processed_timestamp" →
      ((transform_data ts t).rows.getD i []).getD j Value.null =
        (t.rows.getD i []).getD j Value.null) ∧
    (∀ i j, i < t.rows.length → j < t.columns.length →
      t.columns.getD j "" = "processed_timestamp" →
      ((transform_data ts t).rows.getD i []).getD j Value.null =
        Value.str (pyStrip ts)) := by
  have hadd : transform_data ts t =
      { columns := t.columns.map pyLower,
        rows := t.rows.map
          (fun r => (overwriteTimestampRow t.columns ts r).map stripValue) } := by
    simp only [transform_data, addTimestamp, if_pos hpt, List.map_map]
    rfl
  have hcolid : t.columns.map pyLower = t.columns := by
    conv_rhs => rw [← List.map_id t.columns]
    exact List.map_congr_left hcols
  have hrows : ∀ i, i < t.rows.length →
      (transform_data ts t).rows.getD i [] =
        (overwriteTimestampRow t.columns ts (t.rows.getD i [])).map stripValue := by
    intro i hi
    rw [hadd]
    have hi' : i < (t.rows.map
        (fun r => (overwriteTimestampRow t.columns ts r).map stripValue)).length := by
      simpa using hi
    rw [List.getD_eq_getElem _ _ hi', List.getElem_map, List.getD_eq_getElem _ _ hi]
  refine ⟨by rw [hadd]; exact hcolid, by rw [hadd]; simp, ?_, ?_⟩
  · intro i j hj
    by_cases hi : i < t.rows.length
    · rw [hrows i hi]
      have hmem : t.rows.getD i [] ∈ t.rows := by
        rw [List.getD_eq_getElem _ _ hi]
        exact List.getElem_mem _
      rw [overwrite_strip_getD ts t.columns _ j (hwf _ hmem) (htrim _ hmem)]
      rw [if_neg (fun hcon => hj hcon.1)]
    · have h1 : (transform_data ts t).rows.getD i [] = [] := by
        rw [hadd]
        exact List.getD_eq_default _ _ (by simpa using Nat.le_of_not_lt hi)
      have h2 : t.rows.getD i [] = [] :=
        List.getD_eq_default _ _ (Nat.le_of_not_lt hi)
      rw [h1, h2]
  · intro i j hi hj hjpt
    rw [hrows i hi]
    have hmem : t.rows.getD i [] ∈ t.rows := by
      rw [List.getD_eq_getElem _ _ hi]
      exact List.getElem_mem _
    rw [overwrite_strip_getD ts t.columns _ j (hwf _ hmem) (htrim _ hmem)]
    rw [if_pos ⟨hjpt, hj⟩]

/-- C6 witness: renormalizing a concrete normalized table keeps the header
and the `id` cell and rewrites only the timestamp cell. -/
theorem transform_data_idempotent_mod_timestamp_witness :
    (transform_data "T2" tableNormalized).columns = tableNormalized.columns ∧
    ((transform_data "T2" tableNormalized).rows.getD 0 []).getD 0 Value.null =
      (tableNormalized.rows.getD 0 []).getD 0 Value.null ∧
    ((transform_data "T2" tableNormalized).rows.getD 0 []).getD 1 Value.null =
      Value.str (pyStrip "T2") :=
  ⟨(transform_data_idempotent_mod_timestamp tableNormalized "T2"
      (by decide) (by decide) (by decide) (by decide)).1,
   (transform_data_idempotent_mod_timestamp tableNormalized "T2"
      (by decide) (by decide) (by decide) (by decide)).2.2.1 0 0 (by decide),
   (transform_data_idempotent_mod_timestamp tableNormalized "T2"
      (by decide) (by decide) (by decide) (by decide)).2.2.2 0 1
      (by decide) (by decide) (by decide)⟩

/-- C8 counterexample: a run whose pipeline invocation completes
successfully but whose execution-log write raises: the orchestrator then
writes no log file and returns a failed dictionary carrying the write
error instead of the pipeline's result, so the claim's unconditional form
is false on this input. -/
theorem run_pipeline_log_write_failure_cex :
    (processTr (.ok tableOneRow) "T" "data/output.csv" none 0 5 "R").1.status =
      "success" ∧
    (run_pipeline (.ok cfgSample) (.ok tableOneRow) "T" none 0 5 "R" "E"
        "20240101_000000" (some "log disk full")).2.1 = none ∧
    (run_pipeline (.ok cfgSample) (.ok tableOneRow) "T" none 0 5 "R" "E"
        "20240101_000000" (some "log disk full")).1 ≠
      (processTr (.ok tableOneRow) "T" "data/output.csv" none 0 5 "R").1 := by
  refine ⟨rfl, rfl, by decide⟩

/-- C8 (amended): for every run whose configuration carries both paths and
whose execution-log write succeeds, the orchestrator writes exactly one
log file, named `execution_<timestamp>.json` under the configured or
default log directory, whose entry holds the pipeline's result, and
returns that same result unchanged. -/
theorem run_pipeline_logs_and_returns_inner (c : Config) (ip outp : String)
    (load : Except String Table) (ts : String) (writeErr : Option String)
    (tStart tEnd : Int) (rts execTime nowFmt : String)
    (hip : c.input_path = some ip) (hop : c.output_path = some outp) :
    run_pipeline (.ok c) load ts writeErr tStart tEnd rts execTime nowFmt none =
      ((processTr load ts outp writeErr tStart tEnd rts).1,
       some ((c.log_path.getD "logs") ++ "/execution_" ++ nowFmt ++ ".json",
             { pipeline_name := c.pipeline_name.getD "default",
               execution_time := execTime,
               result := (processTr load ts outp writeErr tStart tEnd rts).1 }),
       (processTr load ts outp writeErr tStart tEnd rts).2.1) := by
  simp only [run_pipeline, hip, hop]

/-- C8 witness: a concrete successful run writes its single log file under
the default directory and returns the pipeline result unchanged. -/
theorem run_pipeline_logs_and_returns_inner_witness :
    run_pipeline (.ok cfgSample) (.ok tableOneRow) "T" none 0 5 "R" "E"
        "20240101_000000" none =
      ((processTr (.ok tableOneRow) "T" "data/output.csv" none 0 5 "R").1,
       some ("logs/execution_20240101_000000.json",
             { pipeline_name := "default",
               execution_time := "E",
               result := (processTr (.ok tableOneRow) "T" "data/output.csv"
                 none 0 5 "R").1 }),
       (processTr (.ok tableOneRow) "T" "data/output.csv" none 0 5 "R").2.1) :=
  run_pipeline_logs_and_returns_inner cfgSample "data/input.csv" "data/output.csv"
    (.ok tableOneRow) "T" none 0 5 "R" "E" "20240101_000000" rfl rfl

/-- C9: when reading or parsing the configuration fails, or the
configuration has no `input_path`, the orchestrator returns a failed
result carrying the error message, executes no pipeline stage, and writes
no execution log. -/
theorem run_pipeline_config_failure (e : String) (c : Config)
    (load : Except String Table) (ts : String) (writeErr : Option String)
    (tStart tEnd : Int) (rts execTime nowFmt : String)
    (logWriteErr : Option String) :
    (run_pipeline (.error e) load ts writeErr tStart tEnd rts execTime nowFmt
        logWriteErr =
      (failedResult e none, none, [])) ∧
    (c.input_path = none →
      run_pipeline (.ok c) load ts writeErr tStart tEnd rts execTime nowFmt
          logWriteErr =
        (failedResult "KeyError: input_path" none, none, [])) := by
  refine ⟨rfl, fun hip => ?_⟩
  simp only [run_pipeline, hip]

/-- C9 witness: a configuration missing `input_path` yields the failed
result, no stages, and no log file. -/
theorem run_pipeline_config_failure_witness :
    run_pipeline (.ok cfgNoInput) (.ok tableOneRow) "T" none 0 5 "R" "E" "N"
        (some "x") =
      (failedResult "KeyError: input_path" none, none, []) :=
  (run_pipeline_config_failure "m" cfgNoInput (.ok tableOneRow) "T" none 0 5 "R"
    "E" "N" (some "x")).2 rfl

end ADF
